import Mathlib

/-!
Verification of the videowall-noc controller (src/videowall_noc.py).

The development shallowly embeds the parts of the program that the claims
are about:

* the AVCIT transport resolver (telnet_login, switch_source_auth,
  set_crop_auth, clear_crop, try_default_credentials, log_command);
* the crop geometry and matrix tiling (CropSelectorDialog.apply_crop,
  VideoWallController._apply_matrix);
* the preset snapshot/restore (save_preset, load_preset).

Network devices are modelled as a record of observable behaviour: whether
a TCP connect succeeds, the accumulated login banner produced for a given
username/password pair, and the text a device prints in response to a
command line.  Python string scans such as "OK" in response.upper() are
modelled by an executable substring test over the character list.
-/

namespace VideowallNoc

/-- Model of Python str.upper (ASCII, as produced by the devices). -/
def pyUpper (s : String) : String := String.mk (s.data.map Char.toUpper)

/-- Model of Python str.lower (ASCII). -/
def pyLower (s : String) : String := String.mk (s.data.map Char.toLower)

/-- Model of Python str.strip: drop whitespace from both ends. -/
def pyStrip (s : String) : String :=
  String.mk (((s.data.dropWhile Char.isWhitespace).reverse.dropWhile Char.isWhitespace).reverse)

/-- Model of Python s[:n]: keep the first n characters. -/
def pyTake (s : String) (n : Nat) : String := String.mk (s.data.take n)

/-- tok occurs at the head of l. -/
def tokAt : List Char → List Char → Bool
  | _, [] => true
  | [], _ :: _ => false
  | a :: as, b :: bs => a == b && tokAt as bs

/-- tok occurs somewhere in l (Python "tok in s" on character lists). -/
def hasTokL : List Char → List Char → Bool
  | [], tok => tok.isEmpty
  | l@(_ :: t), tok => tokAt l tok || hasTokL t tok

/-- Python "tok in s" substring test. -/
def hasTok (s tok : String) : Bool := hasTokL s.data tok.data

/-- CropRegion dataclass (videowall_noc.py line 30).  Fields are Python
ints, so they are modelled as Int. -/
structure CropRegion where
  x : Int
  y : Int
  width : Int
  height : Int
  source_width : Int
  source_height : Int
  enabled : Bool
deriving DecidableEq, Repr

/-- The CropRegion invariant stated by the data model (spec section 3). -/
def cropInvariant (c : CropRegion) : Prop :=
  0 ≤ c.x ∧ 0 ≤ c.y ∧ 0 < c.width ∧ 0 < c.height ∧
    c.x + c.width ≤ c.source_width ∧ c.y + c.height ≤ c.source_height

instance (c : CropRegion) : Decidable (cropInvariant c) := by
  unfold cropInvariant; infer_instance

/-- The transport taxonomy of the spec (binary socket, text over HTTP,
authenticated line session).  Every network exchange of the embedding is
tagged with the transport kind that carries it. -/
inductive Transport
  | binarySocket
  | http
  | authSession
deriving DecidableEq, Repr

/-- One network attempt: which transport carried it and the command text. -/
structure Attempt where
  transport : Transport
  command : String
deriving DecidableEq, Repr

/-- One entry of the command activity log (AVCITController.log_command).
The wall-clock timestamp is not modelled. -/
structure LogEntry where
  target : String
  command : String
  success : Bool
  response : String
deriving DecidableEq, Repr

/-- Observable behaviour of one device for one session: whether the TCP
connect succeeds, the text of the error used when it does not, the
accumulated login banner (read_until "login:", read_until "assword:" and
the post-login read, as a function of the credentials sent), and the text
accumulated after each command line. -/
structure Device where
  ip : String
  connectOk : Bool
  connectError : String
  banner : String → String → String
  respond : String → String

/-- The controller's configured fleet-wide credentials
(AVCITController.username / AVCITController.password). -/
structure Controller where
  username : String
  password : String
deriving DecidableEq, Repr

/-- AVCITController.log_command (line 172): append the entry, then pop the
oldest one when the log exceeds 200 entries. -/
def log_command (log : List LogEntry) (e : LogEntry) : List LogEntry :=
  let l := log ++ [e]
  if 200 < l.length then l.tail else l

/-- Login failure test of telnet_login (line 217): the accumulated
response contains "incorrect", "failed" or "denied", lower-cased. -/
def loginFailed (resp : String) : Bool :=
  hasTok (pyLower resp) "incorrect" || hasTok (pyLower resp) "failed" ||
    hasTok (pyLower resp) "denied"

/-- AVCITController.telnet_login (line 190): connect, feed the
credentials, accumulate the banner; abort when the banner carries a
failure word.  Returns the banner on success together with the log
entries appended. -/
def telnet_login (dev : Device) (username password : String) :
    Option String × List LogEntry :=
  if dev.connectOk then
    let resp := dev.banner username password
    if loginFailed resp then
      (none, [⟨dev.ip, "LOGIN " ++ username, false, "Credenciais incorretas"⟩])
    else
      (some resp, [⟨dev.ip, "LOGIN " ++ username, true, "Autenticado"⟩])
  else
    (none, [⟨dev.ip, "LOGIN " ++ username, false, dev.connectError⟩])

/-- Acceptance test of switch_source_auth (line 366): the upper-cased
response contains one of OK, SUCCESS, DONE, ACCEPTED. -/
def switchAccept (resp : String) : Bool :=
  ["OK", "SUCCESS", "DONE", "ACCEPTED"].any fun w => hasTok (pyUpper resp) w

/-- Acceptance test of set_crop_auth (line 401): the upper-cased response
contains OK or SUCCESS. -/
def cropAccept (resp : String) : Bool :=
  hasTok (pyUpper resp) "OK" || hasTok (pyUpper resp) "SUCCESS"

/-- The candidate switch command spellings (line 344). -/
def switchCommands (encoder_ip : String) : List String :=
  ["switch " ++ encoder_ip,
   "SWITCH " ++ encoder_ip,
   "set source " ++ encoder_ip,
   "source " ++ encoder_ip,
   "connect " ++ encoder_ip,
   "play rtsp://" ++ encoder_ip ++ ":551/2160",
   "url rtsp://" ++ encoder_ip ++ ":551/2160",
   "stream " ++ encoder_ip,
   "input " ++ encoder_ip,
   "route " ++ encoder_ip,
   "link " ++ encoder_ip]

/-- The candidate crop command spellings (line 386). -/
def cropCommands (crop : CropRegion) : List String :=
  ["crop " ++ toString crop.x ++ " " ++ toString crop.y ++ " " ++
     toString crop.width ++ " " ++ toString crop.height,
   "window " ++ toString crop.x ++ " " ++ toString crop.y ++ " " ++
     toString crop.width ++ " " ++ toString crop.height,
   "set crop " ++ toString crop.x ++ "," ++ toString crop.y ++ "," ++
     toString crop.width ++ "," ++ toString crop.height,
   "region " ++ toString crop.x ++ " " ++ toString crop.y ++ " " ++
     toString crop.width ++ " " ++ toString crop.height,
   "zoom " ++ toString crop.x ++ " " ++ toString crop.y ++ " " ++
     toString crop.width ++ " " ++ toString crop.height]

/-- The candidate clear-crop commands (line 430). -/
def clearCropCommands : List String :=
  ["crop reset", "window reset", "zoom reset", "fullscreen", "crop 0 0 1920 1080"]

/-- The command loop shared by switch_source_auth and set_crop_auth
(lines 358 and 394): send each candidate over the open telnet session,
log the exchange with success flag True and the stripped response
truncated to 200 characters, and stop at the first response that passes
the acceptance test.  Returns the accepted command (if any), the attempts
made and the log entries appended. -/
def runCandidates (ip : String) (respond : String → String)
    (accept : String → Bool) :
    List String → Option String × List Attempt × List LogEntry
  | [] => (none, [], [])
  | cmd :: rest =>
    let resp := respond cmd
    let entry : LogEntry := ⟨ip, cmd, true, pyTake (pyStrip resp) 200⟩
    if accept resp then
      (some cmd, [⟨Transport.authSession, cmd⟩], [entry])
    else
      let r := runCandidates ip respond accept rest
      (r.1, ⟨Transport.authSession, cmd⟩ :: r.2.1, entry :: r.2.2)

/-- Result of an authenticated command exchange: overall success, the
command the code reports (the accepted candidate, or "LOGIN" when the
login itself failed), the network attempts made and the log entries
appended. -/
structure AuthResult where
  success : Bool
  command : Option String
  attempts : List Attempt
  log : List LogEntry
deriving DecidableEq, Repr

/-- AVCITController.switch_source_auth (line 335): authenticate over the
telnet session, then try the candidate switch commands in order.  On
login failure the code returns (False, "LOGIN", banner) without sending
any candidate. -/
def switch_source_auth (dev : Device) (c : Controller) (encoder_ip : String) :
    AuthResult :=
  match telnet_login dev c.username c.password with
  | (none, lg) => ⟨false, some "LOGIN", [], lg⟩
  | (some _, lg) =>
    let r := runCandidates dev.ip dev.respond switchAccept (switchCommands encoder_ip)
    ⟨r.1.isSome, r.1, r.2.1, lg ++ r.2.2⟩

/-- AVCITController.set_crop_auth (line 378): same loop over the crop
command spellings. -/
def set_crop_auth (dev : Device) (c : Controller) (crop : CropRegion) :
    AuthResult :=
  match telnet_login dev c.username c.password with
  | (none, lg) => ⟨false, some "LOGIN", [], lg⟩
  | (some _, lg) =>
    let r := runCandidates dev.ip dev.respond cropAccept (cropCommands crop)
    ⟨r.1.isSome, r.1, r.2.1, lg ++ r.2.2⟩

/-- AVCITController.switch_source (line 413): delegates to
switch_source_auth and keeps only the success flag. -/
def switch_source (dev : Device) (c : Controller) (encoder_ip : String) : Bool :=
  (switch_source_auth dev c encoder_ip).success

/-- AVCITController.set_crop (line 418). -/
def set_crop (dev : Device) (c : Controller) (crop : CropRegion) : Bool :=
  (set_crop_auth dev c crop).success

/-- Result of clear_crop: success flag, the command lines written, the
attempts made and the log entries appended. -/
structure ClearResult where
  success : Bool
  sent : List String
  attempts : List Attempt
  log : List LogEntry
deriving DecidableEq, Repr

/-- AVCITController.clear_crop (line 423): authenticate, then write all
five clear commands with no read and no acceptance test, and return
True. -/
def clear_crop (dev : Device) (c : Controller) : ClearResult :=
  match telnet_login dev c.username c.password with
  | (none, lg) => ⟨false, [], [], lg⟩
  | (some _, lg) =>
    ⟨true, clearCropCommands,
      clearCropCommands.map fun cmd => ⟨Transport.authSession, cmd⟩, lg⟩

/-- AVCITController.DEFAULT_CREDENTIALS (line 152). -/
def DEFAULT_CREDENTIALS : List (String × String) :=
  [("admin", "admin"), ("admin", ""), ("root", "root"), ("root", ""),
   ("admin", "123456"), ("admin", "password"), ("user", "user"),
   ("guest", "guest")]

/-- The loop of try_default_credentials over an explicit candidate list:
attempt telnet_login with each pair; the first pair that logs in
overwrites the controller's configured credentials and is returned. -/
def try_credentials_list (dev : Device) (c : Controller) :
    List (String × String) → Controller × Option (String × String) × List LogEntry
  | [] => (c, none, [])
  | (u, p) :: rest =>
    match telnet_login dev u p with
    | (some _, lg) => (⟨u, p⟩, some (u, p), lg)
    | (none, lg) =>
      let r := try_credentials_list dev c rest
      (r.1, r.2.1, lg ++ r.2.2)

/-- AVCITController.try_default_credentials (line 229). -/
def try_default_credentials (dev : Device) (c : Controller) :
    Controller × Option (String × String) × List LogEntry :=
  try_credentials_list dev c DEFAULT_CREDENTIALS

/-- CropSelectorDialog.apply_crop (line 912): validate the rectangle the
operator entered against the source frame.  The function returns the
CropRegion handed to the callback, or none when a check fails - in the
code a failed check raises, shows an error box and neither stores nor
dispatches anything. -/
def apply_crop (x y w h source_width source_height : Int) : Option CropRegion :=
  if x < 0 ∨ y < 0 then none
  else if w ≤ 0 ∨ h ≤ 0 then none
  else if x + w > source_width ∨ y + h > source_height then none
  else some ⟨x, y, w, h, source_width, source_height, true⟩

/-- A selected monitor as the matrix code sees it: the decoder identity
and its grid position (row, col). -/
structure Monitor where
  id : String
  row : Nat
  col : Nat
deriving DecidableEq, Repr

/-- The sort key of _apply_matrix (line 1497): lexicographic on
(position.row, position.col). -/
def monLe (a b : Monitor) : Prop :=
  a.row < b.row ∨ (a.row = b.row ∧ a.col ≤ b.col)

instance : DecidableRel monLe := fun a b => by unfold monLe; infer_instance

instance : IsTotal Monitor monLe :=
  ⟨fun a b => by unfold monLe; omega⟩

instance : IsTrans Monitor monLe :=
  ⟨fun a b c hab hbc => by unfold monLe at *; omega⟩

/-- Python sorted(self.selected_monitors, key=(row, col)) - a stable sort
by the grid position. -/
def sortMonitors (ms : List Monitor) : List Monitor :=
  List.insertionSort monLe ms

/-- The crop region _apply_matrix builds for the tile at (r, c) of a
rows x cols matrix over a frame of frameW x frameH (line 1506):
tile_width = frameW // cols, tile_height = frameH // rows, offset
(c * tile_width, r * tile_height). -/
def tileRegion (frameW frameH rows cols r c : Nat) : CropRegion :=
  ⟨(c * (frameW / cols) : Nat), (r * (frameH / rows) : Nat),
   (frameW / cols : Nat), (frameH / rows : Nat), (frameW : Nat), (frameH : Nat), true⟩

/-- The per-monitor assignments of _apply_matrix's apply() (line 1493):
sort the selected monitors by grid position, then give the i-th monitor
the tile at (i // cols, i % cols); with auto_crop off only the source is
switched and no region is set. -/
def matrixAssignments (frameW frameH rows cols : Nat) (auto_crop : Bool)
    (ms : List Monitor) : List (Monitor × Option CropRegion) :=
  (sortMonitors ms).enum.map fun p =>
    (p.2, if auto_crop then
            some (tileRegion frameW frameH rows cols (p.1 / cols) (p.1 % cols))
          else none)

/-- VideoWallController._apply_matrix (line 1472): reject the selection
when its size differs from rows * cols - the code shows a warning and
returns before opening the source dialog, so no tiling happens, no
monitor is mutated and nothing is dispatched; otherwise produce the
assignments. -/
def apply_matrix (frameW frameH rows cols : Nat) (auto_crop : Bool)
    (ms : List Monitor) : Option (List (Monitor × Option CropRegion)) :=
  if ms.length = rows * cols then
    some (matrixAssignments frameW frameH rows cols auto_crop ms)
  else none

/-- The per-decoder topology state the presets capture: the decoder
identity, its current source (an encoder identity) and its crop. -/
structure DecoderState where
  id : String
  current_source : Option String
  crop : Option CropRegion
deriving DecidableEq, Repr

/-- The topology state seen by save_preset/load_preset: the registered
encoder identities and the per-decoder states (the monitor_widgets
dictionary, keyed by decoder id). -/
structure WallState where
  encoders : List String
  decoders : List DecoderState
deriving DecidableEq, Repr

/-- The payload of a Preset (line 130): decoder -> encoder mappings and
decoder -> crop mappings.  Name, identity and timestamp play no role in
restoration and are not modelled. -/
structure Preset where
  mappings : List (String × String)
  crops : List (String × CropRegion)
deriving DecidableEq, Repr

/-- VideoWallController.save_preset (line 1523): record the source of
every decoder that has one and the crop of every decoder that has one. -/
def save_preset (s : WallState) : Preset :=
  ⟨s.decoders.filterMap fun d => d.current_source.map fun e => (d.id, e),
   s.decoders.filterMap fun d => d.crop.map fun cr => (d.id, cr)⟩

/-- VideoWallController.load_preset (line 1537): clear every decoder's
source and crop, then reapply the preset's mappings (only for encoder
ids still registered) and its crops.  Each decoder is written at most
once per dictionary, so the per-decoder outcome is the lookup of its id
in the preset. -/
def load_preset (p : Preset) (s : WallState) : WallState :=
  { s with
    decoders := s.decoders.map fun d =>
      { d with
        current_source :=
          match List.lookup d.id p.mappings with
          | some e => if s.encoders.contains e then some e else none
          | none => none,
        crop := List.lookup d.id p.crops } }

/-- A topology state is well formed when decoder ids are pairwise
distinct (they key a dictionary) and every assigned source refers to a
registered encoder. -/
def wellFormed (s : WallState) : Prop :=
  (s.decoders.map DecoderState.id).Nodup ∧
    ∀ d ∈ s.decoders, d.current_source.all (fun e => s.encoders.contains e) = true

instance (s : WallState) : Decidable (wellFormed s) := by
  unfold wellFormed; infer_instance

/-! Concrete fixtures used by counterexamples and witnesses. -/

/-- The controller with the configured default credentials. -/
def ctrl0 : Controller := ⟨"admin", "admin"⟩

/-- A reachable device that authenticates but accepts no command: every
response is empty. -/
def dev0 : Device :=
  ⟨"172.16.207.11", true, "", fun _ _ => "login: \nPassword: \nWelcome\n# ", fun _ => ""⟩

/-- A device whose response to every command carries both the failure
token ERROR and the success token OK. -/
def devE : Device :=
  ⟨"172.16.207.12", true, "", fun _ _ => "login: \nPassword: \nWelcome\n# ",
   fun _ => "ERROR OK"⟩

/-- A device that rejects every login: the post-login banner says
"Login incorrect". -/
def devL : Device :=
  ⟨"172.16.207.13", true, "", fun _ _ => "login: \nPassword: \nLogin incorrect",
   fun _ => "OK"⟩

/-- A device on which only the pair (root, root) logs in. -/
def devR : Device :=
  ⟨"172.16.207.14", true, "",
   fun u p => if u == "root" && p == "root" then "login: \nPassword: \n# "
              else "login: \nPassword: \nLogin incorrect",
   fun _ => ""⟩

/-- A sample log entry. -/
def e0 : LogEntry := ⟨"172.16.207.11", "switch 172.16.207.75", true, "OK"⟩

/-- A sample crop region (the top-left tile of a 2x2 split). -/
def crop0 : CropRegion := ⟨0, 0, 960, 540, 1920, 1080, true⟩

/-- A topology state holding one decoder that has a crop but no source -
the state produced by loading a preset whose crops mention a decoder its
mappings do not. -/
def s0 : WallState := ⟨["enc_01"], [⟨"dec_01", none, some crop0⟩]⟩

/-- A well-formed two-decoder state: one mapped and cropped decoder, one
idle decoder. -/
def s1 : WallState :=
  ⟨["enc_01", "enc_02"],
   [⟨"dec_01", some "enc_01", some crop0⟩, ⟨"dec_02", none, none⟩]⟩

/-- Four monitors occupying grid positions (0,0), (0,1), (1,0), (1,1). -/
def m00 : Monitor := ⟨"dec_01", 0, 0⟩

/-- See m00. -/
def m01 : Monitor := ⟨"dec_02", 0, 1⟩

/-- See m00. -/
def m10 : Monitor := ⟨"dec_15", 1, 0⟩

/-- See m00. -/
def m11 : Monitor := ⟨"dec_16", 1, 1⟩

/-! Helper lemmas about the candidate-command loop. -/

/-- Every attempt the candidate loop makes is carried by the
authenticated line session. -/
theorem runCandidates_transport (ip : String) (f : String → String)
    (acc : String → Bool) :
    ∀ cands : List String, ∀ a ∈ (runCandidates ip f acc cands).2.1,
      a.transport = Transport.authSession := by
  intro cands
  induction cands with
  | nil => intro a ha; simp [runCandidates] at ha
  | cons cmd rest ih =>
    intro a ha
    by_cases h : acc (f cmd) = true
    · simp [runCandidates, h] at ha
      simp [ha]
    · simp [runCandidates, h] at ha
      rcases ha with ha | ha
      · simp [ha]
      · exact ih a ha

/-- The accepted command of the candidate loop is the first candidate
whose response passes the acceptance test. -/
theorem runCandidates_find (ip : String) (f : String → String)
    (acc : String → Bool) :
    ∀ cands : List String,
      (runCandidates ip f acc cands).1 = cands.find? fun cmd => acc (f cmd) := by
  intro cands
  induction cands with
  | nil => rfl
  | cons cmd rest ih =>
    by_cases h : acc (f cmd) = true
    · simp [runCandidates, h, List.find?_cons_of_pos]
    · simp [runCandidates, h, List.find?_cons_of_neg, ih]

/-- The commands the loop attempts form a prefix of the candidate
list. -/
theorem runCandidates_cmds_pre (ip : String) (f : String → String)
    (acc : String → Bool) :
    ∀ cands : List String,
      ((runCandidates ip f acc cands).2.1.map Attempt.command) <+: cands := by
  intro cands
  induction cands with
  | nil => simp [runCandidates]
  | cons cmd rest ih =>
    by_cases h : acc (f cmd) = true
    · refine ⟨rest, ?_⟩
      simp [runCandidates, h]
    · obtain ⟨t, ht⟩ := ih
      refine ⟨t, ?_⟩
      simp [runCandidates, h, ht]

/-- When no candidate is accepted, the loop attempts every candidate. -/
theorem runCandidates_exhaust (ip : String) (f : String → String)
    (acc : String → Bool) :
    ∀ cands : List String, (runCandidates ip f acc cands).1 = none →
      (runCandidates ip f acc cands).2.1.map Attempt.command = cands := by
  intro cands
  induction cands with
  | nil => intro _; simp [runCandidates]
  | cons cmd rest ih =>
    intro hnone
    by_cases h : acc (f cmd) = true
    · simp [runCandidates, h] at hnone
    · simp [runCandidates, h] at hnone ⊢
      exact ih hnone

/-- The loop logs exactly the commands it attempts, in order. -/
theorem runCandidates_log_cmds (ip : String) (f : String → String)
    (acc : String → Bool) :
    ∀ cands : List String,
      (runCandidates ip f acc cands).2.2.map LogEntry.command
        = (runCandidates ip f acc cands).2.1.map Attempt.command := by
  intro cands
  induction cands with
  | nil => rfl
  | cons cmd rest ih =>
    by_cases h : acc (f cmd) = true
    · simp [runCandidates, h]
    · simp [runCandidates, h, ih]

/-- Every log entry the loop writes carries success flag true,
whatever the device answered. -/
theorem runCandidates_log_success (ip : String) (f : String → String)
    (acc : String → Bool) :
    ∀ cands : List String, ∀ e ∈ (runCandidates ip f acc cands).2.2,
      e.success = true := by
  intro cands
  induction cands with
  | nil => intro e he; simp [runCandidates] at he
  | cons cmd rest ih =>
    intro e he
    by_cases h : acc (f cmd) = true
    · simp [runCandidates, h] at he
      simp [he]
    · simp [runCandidates, h] at he
      rcases he with he | he
      · simp [he]
      · exact ih e he

/-! Claim C1. -/

/-- C1, counterexample: for a reachable device the first attempt made for
a Switch intent is carried by the authenticated line session, not by a
binary socket, and no attempt of the exchange uses the binary-socket or
HTTP transport at all - the code resolves Switch directly through the
authenticated telnet path, so there is no fixed three-transport priority
order to observe. -/
theorem c1_counterexample :
    (switch_source_auth dev0 ctrl0 "172.16.207.75").attempts ≠ [] ∧
    (switch_source_auth dev0 ctrl0 "172.16.207.75").attempts.head?.map Attempt.transport
      = some Transport.authSession ∧
    (switch_source_auth dev0 ctrl0 "172.16.207.75").attempts.head?.map Attempt.transport
      ≠ some Transport.binarySocket ∧
    (switch_source_auth dev0 ctrl0 "172.16.207.75").attempts.map Attempt.transport
      = List.replicate 11 Transport.authSession := by
  decide

/-- C1 (amended): for every Switch, SetCrop or ClearCrop intent the
resolver uses only the authenticated line-oriented session transport -
no binary-socket or HTTP attempt is ever made; within that session,
Switch and SetCrop try their candidate commands in the fixed list order,
stopping at the first accepted candidate (the reported command is the
first candidate whose response passes the acceptance test) or after all
candidates are exhausted; a failed login stops the exchange with no
candidate sent. -/
theorem c1_single_transport_resolution (dev : Device) (c : Controller)
    (encoder_ip : String) (crop : CropRegion) :
    (∀ a ∈ (switch_source_auth dev c encoder_ip).attempts,
        a.transport = Transport.authSession) ∧
    (∀ a ∈ (set_crop_auth dev c crop).attempts,
        a.transport = Transport.authSession) ∧
    (∀ a ∈ (clear_crop dev c).attempts, a.transport = Transport.authSession) ∧
    ((switch_source_auth dev c encoder_ip).attempts.map Attempt.command
        <+: switchCommands encoder_ip) ∧
    ((set_crop_auth dev c crop).attempts.map Attempt.command
        <+: cropCommands crop) ∧
    ((telnet_login dev c.username c.password).1.isSome = true →
      (switch_source_auth dev c encoder_ip).command
          = (switchCommands encoder_ip).find? (fun cmd => switchAccept (dev.respond cmd)) ∧
      (switch_source_auth dev c encoder_ip).success
          = ((switchCommands encoder_ip).find? (fun cmd => switchAccept (dev.respond cmd))).isSome ∧
      (set_crop_auth dev c crop).command
          = (cropCommands crop).find? (fun cmd => cropAccept (dev.respond cmd)) ∧
      ((switch_source_auth dev c encoder_ip).success = false →
        (switch_source_auth dev c encoder_ip).attempts.map Attempt.command
          = switchCommands encoder_ip) ∧
      ((set_crop_auth dev c crop).success = false →
        (set_crop_auth dev c crop).attempts.map Attempt.command
          = cropCommands crop)) ∧
    ((telnet_login dev c.username c.password).1 = none →
      (switch_source_auth dev c encoder_ip).attempts = [] ∧
      (switch_source_auth dev c encoder_ip).success = false ∧
      (set_crop_auth dev c crop).attempts = [] ∧
      (clear_crop dev c).success = false) := by
  rcases hT : telnet_login dev c.username c.password with ⟨o, lg⟩
  cases o with
  | none =>
    refine ⟨?_, ?_, ?_, ?_, ?_, ?_, ?_⟩
    · intro a ha; simp [switch_source_auth, hT] at ha
    · intro a ha; simp [set_crop_auth, hT] at ha
    · intro a ha; simp [clear_crop, hT] at ha
    · simp [switch_source_auth, hT]
    · simp [set_crop_auth, hT]
    · intro h; simp [hT] at h
    · intro _
      refine ⟨?_, ?_, ?_, ?_⟩ <;>
        simp [switch_source_auth, set_crop_auth, clear_crop, hT]
  | some banner =>
    refine ⟨?_, ?_, ?_, ?_, ?_, ?_, ?_⟩
    · intro a ha
      simp only [switch_source_auth, hT] at ha
      exact runCandidates_transport dev.ip dev.respond switchAccept _ a ha
    · intro a ha
      simp only [set_crop_auth, hT] at ha
      exact runCandidates_transport dev.ip dev.respond cropAccept _ a ha
    · intro a ha
      simp only [clear_crop, hT] at ha
      simp only [List.mem_map] at ha
      obtain ⟨cmd, _, rfl⟩ := ha
      rfl
    · simp only [switch_source_auth, hT]
      exact runCandidates_cmds_pre dev.ip dev.respond switchAccept _
    · simp only [set_crop_auth, hT]
      exact runCandidates_cmds_pre dev.ip dev.respond cropAccept _
    · intro _
      refine ⟨?_, ?_, ?_, ?_, ?_⟩
      · simp only [switch_source_auth, hT]
        exact runCandidates_find dev.ip dev.respond switchAccept _
      · simp only [switch_source_auth, hT]
        rw [runCandidates_find dev.ip dev.respond switchAccept]
      · simp only [set_crop_auth, hT]
        exact runCandidates_find dev.ip dev.respond cropAccept _
      · intro hfail
        simp only [switch_source_auth, hT] at hfail ⊢
        refine runCandidates_exhaust dev.ip dev.respond switchAccept _ ?_
        simpa using hfail
      · intro hfail
        simp only [set_crop_auth, hT] at hfail ⊢
        refine runCandidates_exhaust dev.ip dev.respond cropAccept _ ?_
        simpa using hfail
    · intro h; simp [hT] at h

/-- C1, witness: instantiating the amended theorem on the concrete device
dev0 pins down the reported command of a Switch intent as the first
accepted candidate of the telnet command list. -/
theorem c1_witness :
    (switch_source_auth dev0 ctrl0 "172.16.207.75").command
      = (switchCommands "172.16.207.75").find?
          (fun cmd => switchAccept (dev0.respond cmd)) :=
  ((c1_single_transport_resolution dev0 ctrl0 "172.16.207.75" crop0).2.2.2.2.2.1
    (by decide)).1

/-! Claim C2. -/

/-- C2, counterexample: against the reachable device dev0, which
authenticates but accepts no command, Switch does return an overall
failure and the log does carry one entry per attempted candidate - but
every one of those entries (the login entry and the eleven candidate
entries) carries success flag true, not false: switch_source_auth logs
each candidate with success=True before checking acceptance
(line 363). -/
theorem c2_counterexample :
    (switch_source_auth dev0 ctrl0 "172.16.207.75").success = false ∧
    (switch_source_auth dev0 ctrl0 "172.16.207.75").log.map LogEntry.command
      = "LOGIN admin" :: switchCommands "172.16.207.75" ∧
    (switch_source_auth dev0 ctrl0 "172.16.207.75").log.map LogEntry.success
      = List.replicate 12 true := by
  decide

/-- C2 (amended): for a Switch intent against a device that accepts no
candidate command, the operation returns an overall failure
(none-of-the-above) and every attempted candidate is recorded in the
command activity log, one entry per candidate in candidate order after
the login entry - but each entry is recorded with success flag true: the
flag records that the command was sent and a response read, not that the
device accepted it. -/
theorem c2_rejecting_device_all_logged (dev : Device) (c : Controller)
    (encoder_ip : String)
    (hlogin : (telnet_login dev c.username c.password).1.isSome = true)
    (hrej : ∀ cmd ∈ switchCommands encoder_ip,
        switchAccept (dev.respond cmd) = false) :
    (switch_source_auth dev c encoder_ip).success = false ∧
    (switch_source_auth dev c encoder_ip).log.map LogEntry.command
      = ("LOGIN " ++ c.username) :: switchCommands encoder_ip ∧
    ∀ e ∈ (switch_source_auth dev c encoder_ip).log, e.success = true := by
  rcases hT : telnet_login dev c.username c.password with ⟨o, lg⟩
  cases o with
  | none => rw [hT] at hlogin; simp at hlogin
  | some banner =>
    have hfind : (switchCommands encoder_ip).find?
        (fun cmd => switchAccept (dev.respond cmd)) = none :=
      List.find?_eq_none.mpr (by intro x hx; simp [hrej x hx])
    have hnone : (runCandidates dev.ip dev.respond switchAccept
        (switchCommands encoder_ip)).1 = none := by
      rw [runCandidates_find]; exact hfind
    have hlg : lg = [⟨dev.ip, "LOGIN " ++ c.username, true, "Autenticado"⟩] := by
      by_cases hc : dev.connectOk = true
      · simp only [telnet_login, hc, if_true] at hT
        by_cases hf : loginFailed (dev.banner c.username c.password) = true
        · simp [hf] at hT
        · simp only [hf] at hT
          simp at hT
          exact hT.2.symm
      · simp only [Bool.not_eq_true] at hc
        simp [telnet_login, hc] at hT
    refine ⟨?_, ?_, ?_⟩
    · simp only [switch_source_auth, hT]
      simp [hnone]
    · simp only [switch_source_auth, hT]
      rw [List.map_append, hlg]
      rw [runCandidates_log_cmds, runCandidates_exhaust dev.ip dev.respond
        switchAccept _ hnone]
      rfl
    · intro e he
      simp only [switch_source_auth, hT, List.mem_append] at he
      rcases he with he | he
      · rw [hlg] at he; simp at he; simp [he]
      · exact runCandidates_log_success dev.ip dev.respond switchAccept _ e he

/-- C2, witness: the amended theorem applied to the concrete
nothing-accepting device dev0. -/
theorem c2_witness :
    (switch_source_auth dev0 ctrl0 "172.16.207.75").success = false ∧
    (switch_source_auth dev0 ctrl0 "172.16.207.75").log.map LogEntry.command
      = ("LOGIN " ++ ctrl0.username) :: switchCommands "172.16.207.75" := by
  have h := c2_rejecting_device_all_logged dev0 ctrl0 "172.16.207.75"
    (by decide) (by decide)
  exact ⟨h.1, h.2.1⟩

/-! Claim C3. -/

/-- C3, counterexample: the device devE answers every command with
"ERROR OK".  The claim says a candidate is accepted only when the output
contains no failure token, so this response must be rejected - but the
code accepts it at the very first candidate, because switch_source_auth
checks only for success tokens (line 366) and never for failure
tokens. -/
theorem c3_counterexample :
    hasTok (pyUpper (devE.respond "switch 172.16.207.75")) "ERROR" = true ∧
    (switch_source_auth devE ctrl0 "172.16.207.75").success = true ∧
    (switch_source_auth devE ctrl0 "172.16.207.75").command
      = some "switch 172.16.207.75" := by
  decide

/-- C3 (amended): in the authenticated line-session transport a Switch
candidate is accepted if and only if the upper-cased accumulated output
contains one of the success tokens OK, SUCCESS, DONE, ACCEPTED (CONNECTED
is not a success token and failure tokens are never checked), a SetCrop
candidate if and only if it contains OK or SUCCESS; and a post-login
banner containing incorrect, failed or denied aborts the whole session
attempt without sending any candidate command. -/
theorem c3_acceptance_tokens (dev : Device) (c : Controller)
    (encoder_ip : String) (crop : CropRegion) :
    ((telnet_login dev c.username c.password).1.isSome = true →
      ((switch_source_auth dev c encoder_ip).success = true ↔
        ∃ cmd ∈ switchCommands encoder_ip,
          (["OK", "SUCCESS", "DONE", "ACCEPTED"].any
            fun w => hasTok (pyUpper (dev.respond cmd)) w) = true) ∧
      ((set_crop_auth dev c crop).success = true ↔
        ∃ cmd ∈ cropCommands crop,
          (hasTok (pyUpper (dev.respond cmd)) "OK"
            || hasTok (pyUpper (dev.respond cmd)) "SUCCESS") = true)) ∧
    (dev.connectOk = true →
      loginFailed (dev.banner c.username c.password) = true →
      (switch_source_auth dev c encoder_ip).success = false ∧
      (switch_source_auth dev c encoder_ip).attempts = [] ∧
      (set_crop_auth dev c crop).success = false ∧
      (set_crop_auth dev c crop).attempts = []) := by
  constructor
  · intro hlogin
    rcases hT : telnet_login dev c.username c.password with ⟨o, lg⟩
    cases o with
    | none => rw [hT] at hlogin; simp at hlogin
    | some banner =>
      constructor
      · simp only [switch_source_auth, hT]
        rw [show ((runCandidates dev.ip dev.respond switchAccept
            (switchCommands encoder_ip)).1.isSome : Bool)
            = ((switchCommands encoder_ip).find?
                (fun cmd => switchAccept (dev.respond cmd))).isSome from by
          rw [runCandidates_find]]
        rw [List.find?_isSome]
        simp [switchAccept]
      · simp only [set_crop_auth, hT]
        rw [show ((runCandidates dev.ip dev.respond cropAccept
            (cropCommands crop)).1.isSome : Bool)
            = ((cropCommands crop).find?
                (fun cmd => cropAccept (dev.respond cmd))).isSome from by
          rw [runCandidates_find]]
        rw [List.find?_isSome]
        simp [cropAccept]
  · intro hc hf
    have hT : telnet_login dev c.username c.password
        = (none, [⟨dev.ip, "LOGIN " ++ c.username, false, "Credenciais incorretas"⟩]) := by
      simp [telnet_login, hc, hf]
    refine ⟨?_, ?_, ?_, ?_⟩ <;> simp [switch_source_auth, set_crop_auth, hT]

/-- C3, witness: on devE the amended acceptance rule certifies a
successful Switch (first candidate answered with a success token), and on
devL the failed login aborts the session with no candidate sent. -/
theorem c3_witness :
    (switch_source_auth devE ctrl0 "172.16.207.75").success = true ∧
    (switch_source_auth devL ctrl0 "172.16.207.75").attempts = [] := by
  constructor
  · exact ((c3_acceptance_tokens devE ctrl0 "172.16.207.75" crop0).1
      (by decide)).1.mpr ⟨"switch 172.16.207.75", by decide, by decide⟩
  · exact ((c3_acceptance_tokens devL ctrl0 "172.16.207.75" crop0).2
      (by decide) (by decide)).2.2.2

/-! Claim C6. -/

/-- C6: building a matrix when the number of selected decoders differs
from rows * cols fails the shape validation and produces nothing - the
code warns and returns before the source dialog opens, so no tiling is
computed, no monitor is mutated and no network activity happens; the
embedding returns none for that early exit. -/
theorem c6_shape_mismatch (frameW frameH rows cols : Nat) (auto_crop : Bool)
    (ms : List Monitor) (h : ms.length ≠ rows * cols) :
    apply_matrix frameW frameH rows cols auto_crop ms = none := by
  simp [apply_matrix, h]

/-- C6, witness: one selected monitor cannot build a 2x2 matrix. -/
theorem c6_witness : apply_matrix 1920 1080 2 2 true [m00] = none :=
  c6_shape_mismatch 1920 1080 2 2 true [m00] (by decide)

/-! Claim C7. -/

/-- C7: crop validation accepts a rectangle exactly when x and y are
nonnegative, width and height are positive and the rectangle stays inside
the frame; every accepted rectangle is returned unchanged (enabled) and
satisfies the CropRegion invariant; the full-frame rectangle of a
positive frame is accepted; a rejected rectangle yields none - in the
code the callback is never invoked, so nothing is stored and nothing is
dispatched. -/
theorem c7_apply_crop_validation :
    (∀ x y w h sw sh : Int,
      apply_crop x y w h sw sh ≠ none ↔
        (0 ≤ x ∧ 0 ≤ y ∧ 0 < w ∧ 0 < h ∧ x + w ≤ sw ∧ y + h ≤ sh)) ∧
    (∀ x y w h sw sh : Int, ∀ cr, apply_crop x y w h sw sh = some cr →
      cr = ⟨x, y, w, h, sw, sh, true⟩ ∧ cropInvariant cr) ∧
    (∀ sw sh : Int, 0 < sw → 0 < sh →
      apply_crop 0 0 sw sh sw sh = some ⟨0, 0, sw, sh, sw, sh, true⟩) := by
  refine ⟨?_, ?_, ?_⟩
  · intro x y w h sw sh
    unfold apply_crop
    split_ifs with h1 h2 h3 <;> simp <;> omega
  · intro x y w h sw sh cr hcr
    unfold apply_crop at hcr
    split_ifs at hcr with h1 h2 h3
    obtain rfl := (Option.some_inj.mp hcr).symm
    refine ⟨rfl, ?_, ?_, ?_, ?_, ?_, ?_⟩ <;> simp <;> omega
  · intro sw sh hsw hsh
    unfold apply_crop
    split_ifs with h1 h2 h3
    · omega
    · omega
    · omega
    · rfl

/-- C7, witness: the full 1920x1080 frame is accepted, and a rectangle
with negative x is rejected. -/
theorem c7_witness :
    apply_crop 0 0 1920 1080 1920 1080
      = some ⟨0, 0, 1920, 1080, 1920, 1080, true⟩ ∧
    apply_crop (-1) 0 10 10 1920 1080 = none := by
  refine ⟨c7_apply_crop_validation.2.2 1920 1080 (by decide) (by decide), ?_⟩
  cases hr : apply_crop (-1) 0 10 10 1920 1080 with
  | none => rfl
  | some cr =>
    have := (c7_apply_crop_validation.1 (-1) 0 10 10 1920 1080).mp (by simp [hr])
    omega

/-! Claim C8. -/

/-- C8: the command activity log is a bounded FIFO of capacity 200 -
an append onto a log of at most 200 entries leaves at most 200 entries,
an append onto a log below capacity only appends, and an append onto a
full log evicts exactly the oldest (front) entry. -/
theorem c8_log_bounded_fifo (log : List LogEntry) (e : LogEntry)
    (h : log.length ≤ 200) :
    (log_command log e).length ≤ 200 ∧
    (log.length < 200 → log_command log e = log ++ [e]) ∧
    (log.length = 200 → log_command log e = log.tail ++ [e]) := by
  have heq : log_command log e
      = if 200 < (log ++ [e]).length then (log ++ [e]).tail else log ++ [e] := rfl
  by_cases hfull : log.length = 200
  · have hcond : 200 < (log ++ [e]).length := by
      simp only [List.length_append, List.length_singleton, hfull]
      omega
    have htail : log_command log e = log.tail ++ [e] := by
      rw [heq, if_pos hcond]
      cases log with
      | nil => simp at hfull
      | cons a t => rfl
    refine ⟨?_, fun hlt => absurd hfull (Nat.ne_of_lt hlt), fun _ => htail⟩
    rw [htail]
    cases log with
    | nil => simp at hfull
    | cons a t =>
      simp only [List.length_cons] at hfull
      simp only [List.tail_cons, List.length_append, List.length_singleton]
      omega
  · have hlt : log.length < 200 := by omega
    have hcond : ¬ 200 < (log ++ [e]).length := by
      simp only [List.length_append, List.length_singleton]
      omega
    have happ : log_command log e = log ++ [e] := by
      rw [heq, if_neg hcond]
    refine ⟨?_, fun _ => happ, fun hc => absurd hc hfull⟩
    rw [happ]
    simp only [List.length_append, List.length_singleton]
    omega

/-- C8, witness: appending to an empty log only appends; appending to a
full 200-entry log evicts the oldest entry. -/
theorem c8_witness :
    log_command [] e0 = [e0] ∧
    log_command (List.replicate 200 e0) e0
      = (List.replicate 200 e0).tail ++ [e0] :=
  ⟨(c8_log_bounded_fifo [] e0 (by decide)).2.1 (by decide),
   (c8_log_bounded_fifo (List.replicate 200 e0) e0
      (by rw [List.length_replicate])).2.2 (by rw [List.length_replicate])⟩

/-! Claim C9. -/

/-- The first default pair that logs in on dev, if any. -/
theorem try_credentials_list_spec (dev : Device) (c : Controller) :
    ∀ l : List (String × String),
      (∀ u p, l.find? (fun pr => ((telnet_login dev pr.1 pr.2).1).isSome)
          = some (u, p) →
        (try_credentials_list dev c l).1 = ⟨u, p⟩ ∧
        (try_credentials_list dev c l).2.1 = some (u, p)) ∧
      (l.find? (fun pr => ((telnet_login dev pr.1 pr.2).1).isSome) = none →
        (try_credentials_list dev c l).1 = c ∧
        (try_credentials_list dev c l).2.1 = none) := by
  intro l
  induction l with
  | nil => exact ⟨fun u p hf => by simp at hf, fun _ => ⟨rfl, rfl⟩⟩
  | cons pr rest ih =>
    obtain ⟨u', p'⟩ := pr
    rcases hT : telnet_login dev u' p' with ⟨o, lg⟩
    cases o with
    | some banner =>
      have hfind : List.find?
          (fun pr : String × String => ((telnet_login dev pr.1 pr.2).1).isSome)
          ((u', p') :: rest) = some (u', p') := by
        apply List.find?_cons_of_pos
        simp [hT]
      constructor
      · intro u p hf
        rw [hfind] at hf
        obtain ⟨rfl, rfl⟩ : u' = u ∧ p' = p := by
          simpa [Prod.ext_iff] using hf
        simp [try_credentials_list, hT]
      · intro hf
        rw [hfind] at hf
        simp at hf
    | none =>
      have hfind : List.find?
          (fun pr : String × String => ((telnet_login dev pr.1 pr.2).1).isSome)
          ((u', p') :: rest)
          = List.find?
              (fun pr : String × String => ((telnet_login dev pr.1 pr.2).1).isSome)
              rest := by
        apply List.find?_cons_of_neg
        simp [hT]
      constructor
      · intro u p hf
        rw [hfind] at hf
        have := ih.1 u p hf
        simpa [try_credentials_list, hT] using this
      · intro hf
        rw [hfind] at hf
        have := ih.2 hf
        simpa [try_credentials_list, hT] using this

/-- C9: try_default_credentials scans the fixed ordered default pair list;
if some pair logs in, the controller's configured fleet-wide username and
password are overwritten with the first working pair, which is also
returned; if no pair logs in, the configured credentials are left
unchanged and a failure value (none) is returned. -/
theorem c9_try_default_credentials (dev : Device) (c : Controller) :
    (∀ u p, DEFAULT_CREDENTIALS.find?
        (fun pr => ((telnet_login dev pr.1 pr.2).1).isSome) = some (u, p) →
      (try_default_credentials dev c).1 = ⟨u, p⟩ ∧
      (try_default_credentials dev c).2.1 = some (u, p)) ∧
    (DEFAULT_CREDENTIALS.find?
        (fun pr => ((telnet_login dev pr.1 pr.2).1).isSome) = none →
      (try_default_credentials dev c).1 = c ∧
      (try_default_credentials dev c).2.1 = none) :=
  try_credentials_list_spec dev c DEFAULT_CREDENTIALS

/-- C9, witness: on devR only (root, root) logs in, and the configured
credentials are overwritten with it; on devL no pair logs in and the
configured credentials survive unchanged. -/
theorem c9_witness :
    (try_default_credentials devR ctrl0).1 = ⟨"root", "root"⟩ ∧
    (try_default_credentials devR ctrl0).2.1 = some ("root", "root") ∧
    (try_default_credentials devL ctrl0).1 = ctrl0 ∧
    (try_default_credentials devL ctrl0).2.1 = none := by
  have h1 := (c9_try_default_credentials devR ctrl0).1 "root" "root" (by decide)
  have h2 := (c9_try_default_credentials devL ctrl0).2 (by decide)
  exact ⟨h1.1, h1.2, h2.1, h2.2⟩

/-! Claim C10. -/

/-- C10: a ClearCrop intent returns success exactly when the telnet login
succeeds; when it does, all five candidate clear commands are written
unconditionally, with no response read and no acceptance detection, so
the returned value is independent of how the device answers commands
(replacing the response behaviour leaves the whole result unchanged). -/
theorem c10_clear_crop_login_only (dev : Device) (c : Controller)
    (f : String → String) :
    ((clear_crop dev c).success = true ↔
      ((telnet_login dev c.username c.password).1).isSome = true) ∧
    (((telnet_login dev c.username c.password).1).isSome = true →
      (clear_crop dev c).sent = clearCropCommands) ∧
    ((telnet_login dev c.username c.password).1 = none →
      (clear_crop dev c).sent = []) ∧
    clear_crop { dev with respond := f } c = clear_crop dev c := by
  refine ⟨?_, ?_, ?_, rfl⟩
  · rcases hT : telnet_login dev c.username c.password with ⟨o, lg⟩
    cases o <;> simp [clear_crop, hT]
  · intro hs
    rcases hT : telnet_login dev c.username c.password with ⟨o, lg⟩
    cases o with
    | none => rw [hT] at hs; simp at hs
    | some banner => simp [clear_crop, hT]
  · intro hn
    rcases hT : telnet_login dev c.username c.password with ⟨o, lg⟩
    cases o with
    | none => simp [clear_crop, hT]
    | some banner => rw [hT] at hn; simp at hn

/-- C10, witness: on dev0 the login succeeds, so ClearCrop reports
success and writes all five clear commands even though dev0 answers
nothing; on devL the login fails and nothing is sent. -/
theorem c10_witness :
    (clear_crop dev0 ctrl0).success = true ∧
    (clear_crop dev0 ctrl0).sent = clearCropCommands ∧
    (clear_crop devL ctrl0).sent = [] :=
  ⟨(c10_clear_crop_login_only dev0 ctrl0 (fun _ => "")).1.mpr (by decide),
   (c10_clear_crop_login_only dev0 ctrl0 (fun _ => "")).2.1 (by decide),
   (c10_clear_crop_login_only devL ctrl0 (fun _ => "")).2.2.1 (by decide)⟩

/-! Claim C4. -/

/-- Every tile of a rows x cols split of a frame at least as wide as
cols and at least as tall as rows is a valid crop region. -/
theorem tileRegion_invariant {frameW frameH rows cols r c : Nat}
    (hcw : cols ≤ frameW) (hrh : rows ≤ frameH) (hr : r < rows)
    (hc : c < cols) :
    cropInvariant (tileRegion frameW frameH rows cols r c) := by
  have hc0 : 0 < cols := lt_of_le_of_lt (Nat.zero_le c) hc
  have hr0 : 0 < rows := lt_of_le_of_lt (Nat.zero_le r) hr
  have htw : 0 < frameW / cols := Nat.div_pos hcw hc0
  have hth : 0 < frameH / rows := Nat.div_pos hrh hr0
  have hxw : c * (frameW / cols) + frameW / cols ≤ frameW := by
    have h1 : (c + 1) * (frameW / cols) ≤ cols * (frameW / cols) :=
      Nat.mul_le_mul_right _ (by omega)
    have h2 : cols * (frameW / cols) ≤ frameW := by
      rw [mul_comm]; exact Nat.div_mul_le_self frameW cols
    have h3 : (c + 1) * (frameW / cols) = c * (frameW / cols) + frameW / cols := by
      ring
    omega
  have hyh : r * (frameH / rows) + frameH / rows ≤ frameH := by
    have h1 : (r + 1) * (frameH / rows) ≤ rows * (frameH / rows) :=
      Nat.mul_le_mul_right _ (by omega)
    have h2 : rows * (frameH / rows) ≤ frameH := by
      rw [mul_comm]; exact Nat.div_mul_le_self frameH rows
    have h3 : (r + 1) * (frameH / rows) = r * (frameH / rows) + frameH / rows := by
      ring
    omega
  simp only [cropInvariant, tileRegion]
  refine ⟨?_, ?_, ?_, ?_, ?_, ?_⟩
  · exact_mod_cast Nat.zero_le _
  · exact_mod_cast Nat.zero_le _
  · exact_mod_cast htw
  · exact_mod_cast hth
  · exact_mod_cast hxw
  · exact_mod_cast hyh

/-- Two position-sorted lists of monitors with pairwise-distinct grid
positions that are permutations of each other are equal. -/
theorem monitor_sorted_perm_eq :
    ∀ {l₁ l₂ : List Monitor}, l₁.Perm l₂ →
      l₁.Pairwise monLe → l₂.Pairwise monLe →
      (l₂.map fun m => (m.row, m.col)).Nodup → l₁ = l₂ := by
  intro l₁
  induction l₁ with
  | nil =>
    intro l₂ hp _ _ _
    exact (List.perm_nil.mp hp.symm).symm
  | cons a t ih =>
    intro l₂ hp hs₁ hs₂ hnd
    cases l₂ with
    | nil => exact absurd (List.perm_nil.mp hp) (by simp)
    | cons b t₂ =>
      rw [List.map_cons] at hnd
      obtain ⟨hnotin, hndt⟩ := List.nodup_cons.mp hnd
      by_cases hab : a = b
      · subst hab
        rw [ih hp.cons_inv hs₁.of_cons hs₂.of_cons hndt]
      · exfalso
        have ha2 : a ∈ b :: t₂ := hp.subset (List.mem_cons_self a t)
        have hb1 : b ∈ a :: t := hp.symm.subset (List.mem_cons_self b t₂)
        have hat2 : a ∈ t₂ := by
          rcases List.mem_cons.mp ha2 with h | h
          · exact absurd h hab
          · exact h
        have hbt1 : b ∈ t := by
          rcases List.mem_cons.mp hb1 with h | h
          · exact absurd h.symm hab
          · exact h
        have h₁ : monLe a b := (List.pairwise_cons.mp hs₁).1 b hbt1
        have h₂ : monLe b a := (List.pairwise_cons.mp hs₂).1 a hat2
        have hpos : a.row = b.row ∧ a.col = b.col := by
          unfold monLe at h₁ h₂; omega
        have hfa : (a.row, a.col) ∈ t₂.map fun m => (m.row, m.col) :=
          List.mem_map_of_mem _ hat2
        rw [hpos.1, hpos.2] at hfa
        exact hnotin hfa

/-- C4, counterexample: the claim quantifies over every frame and every
rows, cols >= 1, but with a 1x1 frame split 1x2 (rows = 1 >= 1,
cols = 2 >= 1) the integer tile width is 1 div 2 = 0, so matrix
application happily produces a region of width zero that violates the
CropRegion invariant. -/
theorem c4_counterexample :
    apply_matrix 1 1 1 2 true [m00, m01]
      = some [(m00, some ⟨0, 0, 0, 1, 1, 1, true⟩),
              (m01, some ⟨0, 0, 0, 1, 1, 1, true⟩)] ∧
    ¬ cropInvariant ⟨0, 0, 0, 1, 1, 1, true⟩ := by
  decide

/-- C4 (amended): for every frame (frameW, frameH) and every
rows, cols >= 1 with cols <= frameW and rows <= frameH (so that the
integer tile sizes are positive), matrix application with auto-crop
orders the participating decoders by their grid position (row, col)
rather than selection order and assigns the i-th decoder of that order
the tile (i div cols, i mod cols) with crop region
(c*(frameW div cols), r*(frameH div rows), frameW div cols,
frameH div rows), producing exactly rows*cols regions, each satisfying
the CropRegion invariant; in particular a 1920x1080 source tiled 2x2
yields regions (0,0,960,540), (960,0,960,540), (0,540,960,540),
(960,540,960,540) at positions (0,0),(0,1),(1,0),(1,1) regardless of
selection order. -/
theorem c4_matrix_tiling :
    (∀ (frameW frameH rows cols : Nat) (ms : List Monitor),
      1 ≤ rows → 1 ≤ cols → cols ≤ frameW → rows ≤ frameH →
      ms.length = rows * cols →
      apply_matrix frameW frameH rows cols true ms
          = some (matrixAssignments frameW frameH rows cols true ms) ∧
      (matrixAssignments frameW frameH rows cols true ms).length = rows * cols ∧
      (matrixAssignments frameW frameH rows cols true ms).map Prod.fst
          = sortMonitors ms ∧
      (sortMonitors ms).Perm ms ∧
      List.Sorted monLe (sortMonitors ms) ∧
      (∀ i : Nat, i < rows * cols →
        (matrixAssignments frameW frameH rows cols true ms)[i]? =
          ((sortMonitors ms)[i]?).map fun m =>
            (m, some (tileRegion frameW frameH rows cols (i / cols) (i % cols)))) ∧
      (∀ pr ∈ matrixAssignments frameW frameH rows cols true ms,
        ∀ r, pr.2 = some r → cropInvariant r)) ∧
    (∀ l : List Monitor, l.Perm [m00, m01, m10, m11] →
      apply_matrix 1920 1080 2 2 true l
        = some [(m00, some ⟨0, 0, 960, 540, 1920, 1080, true⟩),
                (m01, some ⟨960, 0, 960, 540, 1920, 1080, true⟩),
                (m10, some ⟨0, 540, 960, 540, 1920, 1080, true⟩),
                (m11, some ⟨960, 540, 960, 540, 1920, 1080, true⟩)]) := by
  constructor
  · intro frameW frameH rows cols ms hr hc hcw hrh hlen
    have hc0 : 0 < cols := hc
    have hsortlen : (sortMonitors ms).length = rows * cols := by
      rw [sortMonitors, List.length_insertionSort, hlen]
    refine ⟨?_, ?_, ?_, ?_, ?_, ?_, ?_⟩
    · simp [apply_matrix, hlen]
    · simp [matrixAssignments, List.length_map, List.enum_length, hsortlen]
    · simp only [matrixAssignments, List.map_map]
      exact List.enum_map_snd (sortMonitors ms)
    · exact List.perm_insertionSort monLe ms
    · exact List.sorted_insertionSort monLe ms
    · intro i hi
      simp only [matrixAssignments, List.getElem?_map, List.getElem?_enum,
        Option.map_map]
      rfl
    · intro pr hpr r hr2
      simp only [matrixAssignments, List.mem_map] at hpr
      obtain ⟨⟨i, m⟩, hmem, rfl⟩ := hpr
      have hirc := List.mem_enum hmem
      have hi : i < rows * cols := by rw [← hsortlen]; exact hirc.1
      have hrow : i / cols < rows := by
        rw [Nat.div_lt_iff_lt_mul hc0]
        omega
      have hcol : i % cols < cols := Nat.mod_lt _ hc0
      have hreq : r = tileRegion frameW frameH rows cols (i / cols) (i % cols) := by
        simp at hr2
        exact hr2.symm
      rw [hreq]
      exact tileRegion_invariant hcw hrh hrow hcol
  · intro l hperm
    have hlen : l.length = 2 * 2 := by
      have := hperm.length_eq
      simpa using this
    have hs : sortMonitors l = [m00, m01, m10, m11] := by
      apply monitor_sorted_perm_eq
      · exact (List.perm_insertionSort monLe l).trans hperm
      · exact List.sorted_insertionSort monLe l
      · decide
      · decide
    unfold apply_matrix
    rw [if_pos hlen]
    unfold matrixAssignments
    rw [hs]
    decide

/-- C4, witness: four monitors selected in scrambled click order receive
the four quadrant regions in grid order, and the assignment count is
exactly rows*cols. -/
theorem c4_witness :
    apply_matrix 1920 1080 2 2 true [m11, m00, m10, m01]
      = some [(m00, some ⟨0, 0, 960, 540, 1920, 1080, true⟩),
              (m01, some ⟨960, 0, 960, 540, 1920, 1080, true⟩),
              (m10, some ⟨0, 540, 960, 540, 1920, 1080, true⟩),
              (m11, some ⟨960, 540, 960, 540, 1920, 1080, true⟩)] ∧
    (matrixAssignments 1920 1080 2 2 true [m11, m00, m10, m01]).length = 2 * 2 :=
  ⟨c4_matrix_tiling.2 [m11, m00, m10, m01] (by decide),
   (c4_matrix_tiling.1 1920 1080 2 2 [m11, m00, m10, m01] (by decide) (by decide)
      (by decide) (by decide) (by decide)).2.1⟩

/-! Claim C5. -/

/-- Looking up a key that occurs in none of the decoders yields nothing
in the per-decoder association list a snapshot builds. -/
theorem lookup_saved_of_not_mem {β : Type} (f : DecoderState → Option β) :
    ∀ (l : List DecoderState) (x : String), x ∉ l.map DecoderState.id →
      List.lookup x (l.filterMap fun d => (f d).map fun v => (d.id, v)) = none := by
  intro l
  induction l with
  | nil => intro x _; rfl
  | cons d t ih =>
    intro x hx
    rw [List.map_cons] at hx
    have hxd : x ≠ d.id := fun he => hx (by rw [he]; exact List.mem_cons_self _ _)
    have hxt : x ∉ t.map DecoderState.id := fun hm => hx (List.mem_cons_of_mem _ hm)
    cases hf : f d with
    | none =>
      simp only [List.filterMap_cons, hf, Option.map_none]
      exact ih x hxt
    | some v =>
      simp only [List.filterMap_cons, hf, Option.map_some]
      have hb : (x == d.id) = false := beq_eq_false_iff_ne.mpr hxd
      simp only [List.lookup, hb]
      exact ih x hxt

/-- With pairwise-distinct decoder ids, looking up a decoder's own id in
the association list a snapshot builds returns exactly that decoder's
saved value. -/
theorem lookup_saved_self {β : Type} (f : DecoderState → Option β) :
    ∀ l : List DecoderState, (l.map DecoderState.id).Nodup →
      ∀ d ∈ l,
        List.lookup d.id (l.filterMap fun d2 => (f d2).map fun v => (d2.id, v))
          = f d := by
  intro l
  induction l with
  | nil => intro _ d hd; simp at hd
  | cons d0 t ih =>
    intro hnd d hd
    rw [List.map_cons] at hnd
    obtain ⟨hd0t, hndt⟩ := List.nodup_cons.mp hnd
    rcases List.mem_cons.mp hd with rfl | hdt
    · cases hf : f d with
      | some v =>
        have hb : (d.id == d.id) = true := beq_self_eq_true d.id
        simp only [List.filterMap_cons, hf, Option.map_some, List.lookup, hb]
      | none =>
        simp only [List.filterMap_cons, hf, Option.map_none]
        exact lookup_saved_of_not_mem f t d.id hd0t
    · have hne : d.id ≠ d0.id := by
        intro he
        apply hd0t
        rw [← he]
        exact List.mem_map_of_mem _ hdt
      cases hf : f d0 with
      | some v =>
        have hb : (d.id == d0.id) = false := beq_eq_false_iff_ne.mpr hne
        simp only [List.filterMap_cons, hf, Option.map_some, List.lookup, hb]
        exact ih hndt d hdt
      | none =>
        simp only [List.filterMap_cons, hf, Option.map_none]
        exact ih hndt d hdt

/-- C5, counterexample: in the state s0 the only decoder has a crop but
no source, so it is absent from the snapshot's mappings - yet after
restoring the freshly saved preset it still carries its crop, because
load_preset reapplies the crops dictionary independently of the
mappings.  It does end with no source, but not with no crop. -/
theorem c5_counterexample :
    List.lookup "dec_01" (save_preset s0).mappings = none ∧
    (load_preset (save_preset s0) s0).decoders.map DecoderState.current_source
      = [none] ∧
    (load_preset (save_preset s0) s0).decoders.map DecoderState.crop
      = [some crop0] := by
  decide

/-- C5 (amended): for every well-formed topology state (decoder ids
pairwise distinct, every assigned source a registered encoder), restoring
a preset immediately after snapshotting it with no intervening mutation
is the identity: every decoder ends with exactly the source and crop it
had at snapshot time.  In particular every decoder that was mapped keeps
its identical source and crop, a decoder absent from the snapshot's
mappings ends with no source, and a decoder absent from its crops ends
with no crop - but a decoder that had a crop without a source keeps that
crop rather than ending fully cleared. -/
theorem c5_snapshot_restore_id (s : WallState) (h : wellFormed s) :
    load_preset (save_preset s) s = s := by
  obtain ⟨hnd, hval⟩ := h
  cases s with
  | mk encoders decoders =>
    simp only [load_preset, save_preset, WallState.mk.injEq, true_and]
    have : ∀ d ∈ decoders,
        (fun d : DecoderState =>
          { d with
            current_source :=
              match List.lookup d.id (decoders.filterMap fun d2 =>
                  d2.current_source.map fun e => (d2.id, e)) with
              | some e => if encoders.contains e then some e else none
              | none => none,
            crop := List.lookup d.id (decoders.filterMap fun d2 =>
                d2.crop.map fun cr => (d2.id, cr)) }) d = d := by
      intro d hd
      have hm := lookup_saved_self (fun d2 => d2.current_source) decoders hnd d hd
      have hc := lookup_saved_self (fun d2 => d2.crop) decoders hnd d hd
      cases d with
      | mk id src cr =>
        simp only at hm hc ⊢
        rw [hm, hc]
        cases hsrc : src with
        | none => rfl
        | some e =>
          have hcontains : encoders.contains e = true := by
            have := hval ⟨id, src, cr⟩ hd
            rw [hsrc] at this
            simpa using this
          simp only [hcontains, if_true]
    calc decoders.map _ = decoders.map id := List.map_congr_left this
    _ = decoders := List.map_id decoders

/-- C5, witness: the amended round-trip identity on the concrete
well-formed two-decoder state s1. -/
theorem c5_witness : load_preset (save_preset s1) s1 = s1 :=
  c5_snapshot_restore_id s1 (by decide)

end VideowallNoc
